import Mathlib

/-!
Verification of the job-dispatcher subsystem of the `util` repository
(`py/job-dispatcher/dispatch.py`, `exec_client.py`, `kill_clients.py`).

Pure functions are translated directly; the scripts' file-system and process
effects are embedded as explicit effect records (lists of log appends, spawned
commands, SSH calls, ping/list/kill attempts) produced by pure functions of the
inputs that the scripts read.
-/

namespace Dispatch

/-- Counter update of the round-robin loop (dispatch.py lines 17-19):
`n += 1; if n >= n_machines: n = 0`. -/
def nextSlot (N c : Nat) : Nat := if N ≤ c + 1 then 0 else c + 1

/-- One iteration of `for k in total_jobs` (dispatch.py lines 15-19):
`jobs[n].append(k)` followed by the counter update. An in-place append to
`jobs[n]` is embedded as replacing index `n` with the extended list. -/
def splitStep {α : Type} (N : Nat) (st : List (List α) × Nat) (k : α) :
    List (List α) × Nat :=
  (st.1.set st.2 (st.1.getD st.2 [] ++ [k]), nextSlot N st.2)

/-- `split_jobs` partition phase (dispatch.py lines 10-19): start from
`n_machines` empty slots and a counter at 0, and fold the job list through
`splitStep`.  The slot lists are returned; the write phase (lines 20-26) is
embedded separately as `split_jobs_files`. -/
def split_jobs {α : Type} (total_jobs : List α) (N : Nat) : List (List α) :=
  (total_jobs.foldl (splitStep N) (List.replicate N [], 0)).1

/-- Reference selector: the sub-list of elements that the round-robin loop,
started with counter value `c`, routes to slot `s`, in their original order. -/
def slotSel {α : Type} (N s : Nat) : Nat → List α → List α
  | _, [] => []
  | c, k :: rest => (if c = s then [k] else []) ++ slotSel N s (nextSlot N c) rest

/-- Distance (in loop steps) from counter value `c` to the next hit of slot `s`. -/
def cOffset (N c s : Nat) : Nat := if c ≤ s then s - c else s + N - c

lemma nextSlot_lt (N c : Nat) (hN : 0 < N) : nextSlot N c < N := by
  unfold nextSlot
  split <;> omega

lemma getD_set_self {α : Type} :
    ∀ (l : List α) (i : Nat) (x d : α), i < l.length → (l.set i x).getD i d = x := by
  intro l
  induction l with
  | nil => intro i x d h; simp at h
  | cons a l ih =>
    intro i x d h
    cases i with
    | zero => simp [List.set]
    | succ i =>
      simp only [List.set, List.getD_cons_succ]
      exact ih i x d (by simpa using h)

lemma getD_set_ne {α : Type} :
    ∀ (l : List α) (i j : Nat) (x d : α), i ≠ j → (l.set i x).getD j d = l.getD j d := by
  intro l
  induction l with
  | nil => intro i j x d h; simp [List.set]
  | cons a l ih =>
    intro i j x d h
    cases i with
    | zero =>
      cases j with
      | zero => exact absurd rfl h
      | succ j => simp [List.set]
    | succ i =>
      cases j with
      | zero => simp [List.set]
      | succ j =>
        simp only [List.set, List.getD_cons_succ]
        exact ih i j x d (by omega)

lemma getD_replicate {α : Type} :
    ∀ (n s : Nat) (d : α), (List.replicate n d).getD s d = d := by
  intro n
  induction n with
  | zero => intro s d; simp [List.getD]
  | succ n ih =>
    intro s d
    cases s with
    | zero => simp [List.replicate]
    | succ s => simp [List.replicate, ih s d]

/-- Indexing into the selector: the `j`-th element of slot `s` is the input
element `cOffset N c s` steps after the start, then every `N`-th one. -/
lemma slotSel_get {α : Type} (N s : Nat) (hN : 0 < N) (hs : s < N) :
    ∀ (l : List α) (c j : Nat), c < N →
      (slotSel N s c l)[j]? = l[j * N + cOffset N c s]? := by
  intro l
  induction l with
  | nil => intro c j _; simp [slotSel]
  | cons k rest ih =>
    intro c j hc
    by_cases hcs : c = s
    · subst hcs
      have hoff0 : cOffset N c c = 0 := by unfold cOffset; simp
      cases j with
      | zero =>
        simp [slotSel, hoff0]
      | succ j =>
        have hstep : (slotSel N c c (k :: rest))[j + 1]? =
            (slotSel N c (nextSlot N c) rest)[j]? := by
          simp [slotSel]
        rw [hstep, ih (nextSlot N c) j (nextSlot_lt N c hN)]
        have hoff : cOffset N (nextSlot N c) c = N - 1 := by
          unfold cOffset nextSlot
          split_ifs <;> omega
        have hidx : (j + 1) * N + cOffset N c c = (j * N + cOffset N (nextSlot N c) c) + 1 := by
          rw [hoff0, hoff]
          have : (j + 1) * N = j * N + N := by ring
          omega
        rw [hidx, List.getElem?_cons_succ]
    · have hstep : slotSel N s c (k :: rest) = slotSel N s (nextSlot N c) rest := by
        simp [slotSel, hcs]
      rw [hstep, ih (nextSlot N c) j (nextSlot_lt N c hN)]
      have hoff : cOffset N c s = cOffset N (nextSlot N c) s + 1 := by
        unfold cOffset nextSlot
        split_ifs <;> omega
      have hidx : j * N + (cOffset N (nextSlot N c) s + 1) =
          (j * N + cOffset N (nextSlot N c) s) + 1 := by omega
      rw [hoff, hidx, List.getElem?_cons_succ]

/-- The fold preserves the number of slots. -/
lemma foldl_split_length {α : Type} (N : Nat) :
    ∀ (l : List α) (slots : List (List α)) (c : Nat),
      (l.foldl (splitStep N) (slots, c)).1.length = slots.length := by
  intro l
  induction l with
  | nil => intro slots c; simp
  | cons k rest ih =>
    intro slots c
    simp only [List.foldl_cons]
    rw [ih]
    simp [splitStep]

/-- Invariant of the round-robin fold: starting from `slots` and counter `c`,
slot `s` ends up holding its initial content followed by exactly the elements
the selector routes to `s`. -/
lemma foldl_split {α : Type} (N : Nat) (hN : 0 < N) :
    ∀ (l : List α) (slots : List (List α)) (c : Nat), slots.length = N → c < N →
      ∀ s, s < N →
        (l.foldl (splitStep N) (slots, c)).1.getD s [] = slots.getD s [] ++ slotSel N s c l := by
  intro l
  induction l with
  | nil => intro slots c _ _ s _; simp [slotSel]
  | cons k rest ih =>
    intro slots c hlen hc s hs
    simp only [List.foldl_cons]
    have hset : (slots.set c (slots.getD c [] ++ [k])).length = N := by
      simpa using hlen
    have := ih (slots.set c (slots.getD c [] ++ [k])) (nextSlot N c) hset
      (nextSlot_lt N c hN) s hs
    simp only [splitStep] at this ⊢
    rw [this]
    by_cases hcs : c = s
    · subst hcs
      rw [getD_set_self slots c _ [] (by omega)]
      simp [slotSel]
    · rw [getD_set_ne slots c s _ [] hcs]
      simp [slotSel, hcs]

/-- The partition has exactly `N` slots, for every `N` (including 0). -/
lemma split_jobs_length {α : Type} (jobs : List α) (N : Nat) :
    (split_jobs jobs N).length = N := by
  unfold split_jobs
  rw [foldl_split_length]
  simp

/-- Slot `s` of the partition is exactly the selector output started at 0. -/
lemma split_jobs_slot {α : Type} (jobs : List α) (N : Nat) (hN : 0 < N)
    (s : Nat) (hs : s < N) :
    (split_jobs jobs N).getD s [] = slotSel N s 0 jobs := by
  unfold split_jobs
  rw [foldl_split N hN jobs (List.replicate N []) 0 (by simp) hN s hs,
    getD_replicate]
  simp

/-- C1: round-robin partition correctness of `split_jobs` (dispatch.py lines
10-19): there are exactly `N` slots; slot `s` holds, in original order, exactly
the jobs whose index is congruent to `s` mod `N` (the element of slot `s` at
position `j` is job `j * N + s`); in particular job `i` sits in slot `i % N` at
position `i / N`, so every job lands in exactly one slot and reading the slots
back by slot and position reconstructs the original list exactly. -/
theorem C1_round_robin {α : Type} (jobs : List α) (N : Nat) (hN : 0 < N) :
    (split_jobs jobs N).length = N ∧
    (∀ s, s < N → (split_jobs jobs N).getD s [] = slotSel N s 0 jobs) ∧
    (∀ s j, s < N → ((split_jobs jobs N).getD s [])[j]? = jobs[j * N + s]?) ∧
    (∀ i, i < jobs.length →
      ((split_jobs jobs N).getD (i % N) [])[i / N]? = jobs[i]?) := by
  refine ⟨split_jobs_length jobs N, fun s hs => split_jobs_slot jobs N hN s hs, ?_, ?_⟩
  · intro s j hs
    rw [split_jobs_slot jobs N hN s hs, slotSel_get N s hN hs jobs 0 j hN]
    have : cOffset N 0 s = s := by unfold cOffset; simp
    rw [this]
  · intro i hi
    have hs : i % N < N := Nat.mod_lt i hN
    rw [split_jobs_slot jobs N hN (i % N) hs,
      slotSel_get N (i % N) hN hs jobs 0 (i / N) hN]
    have h1 : cOffset N 0 (i % N) = i % N := by unfold cOffset; simp
    have h2 : i / N * N + i % N = i := by
      rw [Nat.mul_comm]
      exact Nat.div_add_mod i N
    rw [h1, h2]

/-- Witness for C1 at a concrete input: 3 jobs over 2 slots. -/
theorem C1_round_robin_witness :
    0 < 2 ∧ (split_jobs ["a", "b", "c"] 2).length = 2 :=
  ⟨by decide, (C1_round_robin ["a", "b", "c"] 2 (by decide)).1⟩

/-- Zero-padding of a slot index as Python `"{:02d}".format(id_job)` renders it
for every natural number: a single leading zero below 10, no padding above. -/
def format02 (n : Nat) : String := if n < 10 then "0" ++ toString n else toString n

/-- Slot file path built at dispatch.py lines 21-22:
`os.path.join(pool_path, "{}_{:02d}.txt".format(prefix_str, id_job))`. -/
def slotFileName (pool_path prefix_str : String) (id_job : Nat) : String :=
  pool_path ++ "/" ++ prefix_str ++ "_" ++ format02 id_job ++ ".txt"

/-- Write phase of `split_jobs` (dispatch.py lines 20-26): for each slot index,
one file at `slotFileName` holding that slot's jobs, one per line.  The file
system write is embedded as the returned (path, lines) pairs. -/
def split_jobs_files {α : Type} (jobs : List α) (N : Nat)
    (pool_path prefix_str : String) : List (String × List α) :=
  (split_jobs jobs N).enum.map (fun p => (slotFileName pool_path prefix_str p.1, p.2))

/-- C5 counterexample: `split_jobs` writes slot 0 of a 1-slot split with
`prefix` string "job" in pool "pool" to "pool/job_00.txt" — a 2-digit-padded
`.txt` file — and writes no file named "pool/job_000000000.cmds" (nor any
`.expects` file), contradicting the claimed `{prefix}_{slot:09d}.cmds` /
`.expects` naming. -/
theorem C5_counterexample :
    (split_jobs_files ["a"] 1 "pool" "job").map Prod.fst = ["pool/job_00.txt"] ∧
    "pool/job_000000000.cmds" ∉ (split_jobs_files ["a"] 1 "pool" "job").map Prod.fst := by
  constructor
  · rfl
  · intro h
    simp only [show (split_jobs_files ["a"] 1 "pool" "job").map Prod.fst
        = ["pool/job_00.txt"] from rfl] at h
    revert h
    decide

/-- C5 amended: for every job list, slot count `N`, pool path and filename
`prefix`, the splitter writes exactly one file per slot, named
`{pool}/{prefix}_{slot:02d}.txt` (slot index zero-padded to 2 digits), holding
that slot's commands; it writes no expectations files. -/
theorem C5_slot_file_naming {α : Type} (jobs : List α) (N : Nat)
    (pool_path prefix_str : String) :
    (split_jobs_files jobs N pool_path prefix_str).map Prod.fst =
      (List.range N).map (slotFileName pool_path prefix_str) ∧
    (split_jobs_files jobs N pool_path prefix_str).map Prod.snd = split_jobs jobs N := by
  unfold split_jobs_files
  constructor
  · rw [List.map_map]
    have h1 : ((split_jobs jobs N).enum.map fun p =>
        (Prod.fst ∘ fun p => (slotFileName pool_path prefix_str p.1, p.2)) p) =
        (split_jobs jobs N).enum.map fun p => slotFileName pool_path prefix_str p.1 := rfl
    rw [h1, show ((split_jobs jobs N).enum.map fun p =>
        slotFileName pool_path prefix_str p.1) =
        ((split_jobs jobs N).enum.map Prod.fst).map (slotFileName pool_path prefix_str)
      from by rw [List.map_map]; rfl]
    rw [List.enum_map_fst, split_jobs_length]
  · rw [List.map_map]
    rw [show (Prod.snd ∘ fun p : Nat × List α =>
        (slotFileName pool_path prefix_str p.1, p.2)) = Prod.snd from rfl]
    exact List.enum_map_snd _

/-- Effects of `send_jobs` (dispatch.py lines 29-51): the commands printed, the
lines written to `cmd_log.txt`, and the SSH invocations actually issued. -/
structure DispatchEffects where
  printed : List String
  cmdLogLines : List String
  sshCalls : List String
deriving DecidableEq

/-- One SSH command string built at dispatch.py lines 32-42 for machine number
`mach` in position `idk` of the machine list.  The per-machine `"{}"`
substitution into `exec_args_in` (lines 33-36) is abstracted: `exec_args` is
taken as the already-resolved argument string. -/
def sendCmd (is_python : Bool) (exec_client_path exec_args pool_path prefix_str : String)
    (idk : Nat) (mach : String) : String :=
  let job_file := pool_path ++ "/" ++ prefix_str ++ "_" ++ format02 idk ++ ".txt"
  if is_python then
    "ssh -f vision" ++ mach ++ " python " ++ exec_client_path ++ " " ++ exec_args
      ++ " " ++ job_file
  else
    "ssh -f vision" ++ mach ++ " " ++ exec_client_path ++ " " ++ exec_args
      ++ " " ++ job_file

/-- `send_jobs` (dispatch.py lines 29-51): build one SSH command per machine,
print each, write them all to `cmd_log.txt`, and issue them through
`subprocess.call` only when `dry_run` is false. -/
def send_jobs (machine_list : List String) (prefix_str pool_path : String)
    (dry_run is_python : Bool) (exec_args exec_client_path : String) : DispatchEffects :=
  let cmds := machine_list.enum.map
    (fun p => sendCmd is_python exec_client_path exec_args pool_path prefix_str p.1 p.2)
  { printed := cmds
    cmdLogLines := cmds
    sshCalls := if dry_run then [] else cmds }

end Dispatch

namespace ExecClient

/-- Task-cap slice of exec_client.py lines 49-50: `if args.cap > 0: tasks =
tasks[0:args.cap]`, with the default cap of `-1` leaving the list whole. -/
def capTasks (tasks : List String) (cap : Int) : List String :=
  if 0 < cap then tasks.take cap.toNat else tasks

/-- Failure record appended at exec_client.py lines 64-66: for a completed task
with status `s[0]` and command `s[1]`, the line `"{}:  {}".format(s[1], s[0])`
is appended to the log file exactly when the status is non-zero. -/
def failureRecord (run : String → Int) (t : String) : Option String :=
  if run t = 0 then none else some (t ++ ":  " ++ toString (run t))

/-- Effects of one run of the execution client `main` (exec_client.py lines
37-80): whether the worker pool was created, the strings appended to the log
file in order, the commands handed to `subprocess.call`, and the lines printed. -/
structure ClientEffects where
  poolCreated : Bool
  logAppends : List String
  calledCmds : List String
  printed : List String
deriving DecidableEq

/-- `main` of exec_client.py (lines 37-80), in the list-of-tasks mode
(`full_file` unset).  `run` determinizes each command's exit status.  Source
order: the worker pool is created (lines 45-48) and the hostname line is
appended to the log (lines 53-54) before the dry-run flag is checked (line 56);
with dry-run set the tasks are only printed; otherwise every task goes through
the pool and each non-zero status appends a failure record (lines 63-66).
The unordered completion of `imap_unordered` is determinized to submission
order, and `.strip()` of each command is absorbed into the task strings. -/
def exec_client_main (tasks : List String) (cap : Int) (dryrun : Bool)
    (hostname : String) (run : String → Int) : ClientEffects :=
  let tasks := capTasks tasks cap
  if dryrun then
    { poolCreated := true
      logAppends := [hostname]
      calledCmds := []
      printed := tasks.map (fun k => hostname ++ ": " ++ k) }
  else
    { poolCreated := true
      logAppends := hostname :: tasks.filterMap (failureRecord run)
      calledCmds := tasks
      printed := [] }

/-- C4 counterexample: with the dry-run flag set, the execution client still
appends the hostname line to its log file and still creates its worker pool
(lines 45-48 and 53-54 run before the flag check at line 56), so the run is not
free of file modification and subprocess creation. -/
theorem C4_counterexample :
    (exec_client_main ["echo hi"] (-1) true "host" (fun _ => 0)).logAppends = ["host"] ∧
    (exec_client_main ["echo hi"] (-1) true "host" (fun _ => 0)).logAppends ≠ [] ∧
    (exec_client_main ["echo hi"] (-1) true "host" (fun _ => 0)).poolCreated = true := by
  refine ⟨rfl, by decide, rfl⟩

/-- C4 amended: with dry-run enabled the execution client executes no job
command and appends no failure record — but it does create its worker pool and
append the hostname line to the log before checking the flag — and its printed
output lists exactly the would-be commands; the dispatcher in dry-run mode
issues no SSH invocation, though it still writes the command log. -/
theorem C4_dry_run (tasks : List String) (cap : Int) (hostname : String)
    (run : String → Int) (machine_list : List String)
    (prefix_str pool_path exec_args ecp : String) (is_python : Bool) :
    (exec_client_main tasks cap true hostname run).calledCmds = [] ∧
    (exec_client_main tasks cap true hostname run).logAppends = [hostname] ∧
    (exec_client_main tasks cap true hostname run).poolCreated = true ∧
    (exec_client_main tasks cap true hostname run).printed =
      (capTasks tasks cap).map (fun k => hostname ++ ": " ++ k) ∧
    (Dispatch.send_jobs machine_list prefix_str pool_path true is_python
      exec_args ecp).sshCalls = [] ∧
    (Dispatch.send_jobs machine_list prefix_str pool_path true is_python
      exec_args ecp).cmdLogLines = machine_list.enum.map
        (fun p => Dispatch.sendCmd is_python ecp exec_args pool_path prefix_str p.1 p.2) := by
  refine ⟨rfl, rfl, rfl, rfl, rfl, rfl⟩

/-- C9: in a real (non-dry) run, every scheduled task is handed to the shell
even when earlier tasks fail, the log receives — after the hostname line —
exactly one record `command ++ ":  " ++ status` for each task whose exit status
is non-zero, in completion order, and a task with exit status zero produces no
failure record. -/
theorem C9_failure_logging (tasks : List String) (cap : Int) (hostname : String)
    (run : String → Int) :
    (exec_client_main tasks cap false hostname run).calledCmds = capTasks tasks cap ∧
    (exec_client_main tasks cap false hostname run).logAppends =
      hostname :: (capTasks tasks cap).filterMap (failureRecord run) ∧
    (∀ t, t ∈ capTasks tasks cap → run t ≠ 0 →
      (t ++ ":  " ++ toString (run t)) ∈
        (exec_client_main tasks cap false hostname run).logAppends) ∧
    (∀ t, run t = 0 → failureRecord run t = none) := by
  refine ⟨rfl, rfl, ?_, ?_⟩
  · intro t ht hrun
    refine List.mem_cons_of_mem _ (List.mem_filterMap.mpr ⟨t, ht, ?_⟩)
    simp [failureRecord, hrun]
  · intro t hrun
    simp [failureRecord, hrun]

/-- Witness for C9 at a concrete input: of two tasks, the one with exit status
1 gets a failure record in the log, the other does not. -/
theorem C9_failure_logging_witness :
    ("a" ∈ capTasks ["a", "b"] (-1)) ∧
    ((fun t => if t == "a" then (1 : Int) else 0) "a" ≠ 0) ∧
    ("a" ++ ":  " ++ toString ((fun t => if t == "a" then (1 : Int) else 0) "a") ∈
      (exec_client_main ["a", "b"] (-1) false "h"
        (fun t => if t == "a" then (1 : Int) else 0)).logAppends) :=
  ⟨by decide, by decide,
    (C9_failure_logging ["a", "b"] (-1) "h"
      (fun t => if t == "a" then (1 : Int) else 0)).2.2.1 "a" (by decide) (by decide)⟩

/-- C10: the `-c` cap flag keeps exactly the first `min(cap, L)` tasks in their
original order when positive, and all tasks otherwise, and the capped list is
what dry-run listing prints and what real execution runs. -/
theorem C10_task_cap (tasks : List String) (cap : Int) (hostname : String)
    (run : String → Int) :
    (0 < cap → capTasks tasks cap = tasks.take (min cap.toNat tasks.length) ∧
      (capTasks tasks cap).length = min cap.toNat tasks.length) ∧
    (cap ≤ 0 → capTasks tasks cap = tasks) ∧
    (exec_client_main tasks cap true hostname run).printed =
      (capTasks tasks cap).map (fun k => hostname ++ ": " ++ k) ∧
    (exec_client_main tasks cap false hostname run).calledCmds = capTasks tasks cap := by
  refine ⟨?_, ?_, rfl, rfl⟩
  · intro hcap
    unfold capTasks
    rw [if_pos hcap]
    constructor
    · rw [List.take_eq_take]
      omega
    · rw [List.length_take]
  · intro hcap
    unfold capTasks
    rw [if_neg (by omega)]

/-- Witness for C10 at a concrete input: cap 2 on a 3-task list keeps the first
two tasks. -/
theorem C10_task_cap_witness :
    (0 < (2 : Int)) ∧ capTasks ["a", "b", "c"] 2 = ["a", "b", "c"].take (min (2 : Int).toNat 3) :=
  ⟨by decide,
    ((C10_task_cap ["a", "b", "c"] 2 "h" (fun _ => 0)).1 (by decide)).1⟩

end ExecClient

namespace KillClients

/-- Message severity used by `kill_machine` (kill_clients.py): the keys of the
per-machine `OrderedDict` carry one of these logger levels. -/
inductive MsgLevel where
  | info
  | warning
  | error
deriving DecidableEq

/-- Abstract remote environment seen by the reaper: the local hostname
(`check_output("hostname")` in `on_this_machine`), whether a bounded-timeout
ping of a machine succeeds (`ping_ok`), the detached process ids a remote
listing reports for (machine, user, job_name) (`get_pids`), and whether a
remote `kill -9` of a given pid on a given machine succeeds
(`ssh_kill_process`). -/
structure Net where
  localHostname : String
  pingOk : String → Bool
  pids : String → String → String → List String
  killOk : String → String → Bool

/-- Remote actions attempted while handling one machine: pings issued, process
listings requested, and (machine, pid) kill attempts. -/
structure KillEffects where
  pinged : List String
  listed : List String
  killAttempts : List (String × String)
deriving DecidableEq

/-- A machine's entry in the result list: its name with its ordered outcome
messages.  The `"%s: "` name placeholder of the source messages is embedded
already substituted. -/
abbrev MachineReport := String × List (MsgLevel × String)

/-- `kill_machine` (kill_clients.py lines 50-81): skip the reaper's own
machine; otherwise ping, and on success list the detached client pids, attempt
`kill -9` on each, and report which were and were not killed.  The source text
of the ping-failure message contains an apostrophe between `Can` and `t`,
elided here; the Python list display of pid lists is embedded as the pids
joined by spaces. -/
def kill_machine (net : Net) (machine_name user job_name : String) :
    MachineReport × KillEffects :=
  if machine_name = net.localHostname then
    ((machine_name,
      [(MsgLevel.info, machine_name ++ ": Skip killing, since you are on it")]),
     ⟨[], [], []⟩)
  else if net.pingOk machine_name = false then
    ((machine_name, [(MsgLevel.error, machine_name ++ ": Cant ping")]),
     ⟨[machine_name], [], []⟩)
  else
    let pids := net.pids machine_name user job_name
    let pids_killed := pids.filter (fun pid => net.killOk machine_name pid)
    let pids_unkilled := pids.filter (fun pid => !(pids_killed.contains pid))
    ((machine_name,
      (if pids.isEmpty then
        [(MsgLevel.info, machine_name ++ ": No clients found")] else []) ++
      (if !pids_killed.isEmpty then
        [(MsgLevel.info, machine_name ++ ": "
          ++ String.intercalate " " pids_killed ++ " killed")] else []) ++
      (if !pids_unkilled.isEmpty then
        [(MsgLevel.warning, machine_name ++ ": "
          ++ String.intercalate " " pids_unkilled ++ " NOT killed")] else [])),
     ⟨[machine_name], [machine_name], pids.map (fun pid => (machine_name, pid))⟩)

/-- Comparison used by `sorted(results, key=itemgetter(0))` at kill_clients.py
line 122: order reports by machine name. -/
def reportLE (a b : MachineReport) : Prop := a.1 ≤ b.1

/-- Strict version of `reportLE`, used to pin the sorted report down uniquely
when machine names are distinct. -/
def reportLT (a b : MachineReport) : Prop := a.1 < b.1

instance : DecidableRel reportLE :=
  fun a b => inferInstanceAs (Decidable (a.1 ≤ b.1))

instance : DecidableRel reportLT :=
  fun a b => inferInstanceAs (Decidable (a.1 < b.1))

instance : IsTotal MachineReport reportLE := ⟨fun a b => le_total a.1 b.1⟩

instance : IsTrans MachineReport reportLE := ⟨fun _ _ _ h1 h2 => le_trans h1 h2⟩

instance : IsAntisymm MachineReport reportLT :=
  ⟨fun _ _ h1 h2 => absurd h1 (lt_asymm h2)⟩

/-- The final reporting pass (kill_clients.py line 122): the out-of-order pool
results are emitted sorted by machine name.  Python's `sorted` is a stable
comparison sort; it is embedded as insertion sort, which has the same
sorted-output specification. -/
def reportResults (rs : List MachineReport) : List MachineReport :=
  rs.insertionSort reportLE

/-- CPU pool of `get_machine_names` (kill_clients.py line 91):
`vision01` .. `vision38`. -/
def cpu_machines : List String :=
  (List.range' 1 38).map (fun e => "vision" ++ Dispatch.format02 e)

/-- GPU pool of `get_machine_names` (kill_clients.py line 92):
`visiongpu01` .. `visiongpu39`. -/
def gpu_machines : List String :=
  (List.range' 1 39).map (fun e => "visiongpu" ++ Dispatch.format02 e)

/-- `get_machine_names` (kill_clients.py lines 90-101): fixed CPU and GPU name
pools selected by the `where` argument; any other selector raises
`NotImplementedError`, embedded as the error branch. -/
def get_machine_names (whereSel : String) : Except String (List String) :=
  if whereSel = "cgpu" then Except.ok (cpu_machines ++ gpu_machines)
  else if whereSel = "cpu" then Except.ok cpu_machines
  else if whereSel = "gpu" then Except.ok gpu_machines
  else Except.error "NotImplementedError"

/-- `main` of kill_clients.py (lines 104-125).  Line 107 rebinds `args` — the
parsed-argument namespace — to an empty list, and the first iteration of the
loop at lines 108-109 then evaluates `args.user` on that list: an
`AttributeError` whenever the machine list is non-empty, raised before the
worker pool is created, before any machine is contacted, and before the
name-sorted report of line 122.  The run is embedded as `Except`: the pool
fan-out over `kill_machine` and the `reportResults` sort are reached only by
an empty machine list, which `get_machine_names` never returns. -/
def kill_main (net : Net) (user job_name whereSel : String) :
    Except String (List MachineReport) :=
  match get_machine_names whereSel with
  | Except.error e => Except.error e
  | Except.ok [] =>
    Except.ok (reportResults (([] : List String).map
      (fun m => (kill_machine net m user job_name).1)))
  | Except.ok (_ :: _) => Except.error "AttributeError"

/-- C6: for the machine the reaper itself runs on, `kill_machine` returns only
the skip message and performs no ping, no process listing and no kill attempt. -/
theorem C6_self_exclusion (net : Net) (machine_name user job_name : String)
    (h : machine_name = net.localHostname) :
    kill_machine net machine_name user job_name =
      ((machine_name,
        [(MsgLevel.info, machine_name ++ ": Skip killing, since you are on it")]),
       ⟨[], [], []⟩) := by
  unfold kill_machine
  rw [if_pos h]

/-- Witness for C6 at a concrete input: the reaper on "self" skips "self". -/
theorem C6_self_exclusion_witness :
    "self" = (Net.mk "self" (fun _ => true) (fun _ _ _ => ["1"]) (fun _ _ => true)).localHostname ∧
    kill_machine (Net.mk "self" (fun _ => true) (fun _ _ _ => ["1"]) (fun _ _ => true))
        "self" "u" "j" =
      (("self", [(MsgLevel.info, "self" ++ ": Skip killing, since you are on it")]),
       ⟨[], [], []⟩) :=
  ⟨rfl, C6_self_exclusion
    (Net.mk "self" (fun _ => true) (fun _ _ _ => ["1"]) (fun _ _ => true)) "self" "u" "j" rfl⟩

/-- Any machine list `get_machine_names` accepts a selector for is non-empty,
so the crash at kill_clients.py line 109 has no empty-list escape. -/
lemma get_machine_names_ne_nil (whereSel : String) (names : List String)
    (h : get_machine_names whereSel = Except.ok names) : names ≠ [] := by
  unfold get_machine_names at h
  split_ifs at h <;> injection h with h <;> subst h <;> simp [cpu_machines, gpu_machines]

/-- C7: for a machine that cannot be pinged, `kill_machine` records only the
ping-failure error, pings it but never lists or kills anything there.  The
run-level half of the claim fails on the source, however: `main` rebinds
`args` to an empty list (kill_clients.py line 107) and then evaluates
`args.user` on it (line 109), so every invocation with a valid machine-pool
selector raises `AttributeError` before any machine is processed — the reaper
run never completes and reports. -/
theorem C7_ping_failure_and_crash (net : Net) (machine_name user job_name : String)
    (h1 : machine_name ≠ net.localHostname)
    (h2 : net.pingOk machine_name = false) :
    (kill_machine net machine_name user job_name).1.2 =
      [(MsgLevel.error, machine_name ++ ": Cant ping")] ∧
    (kill_machine net machine_name user job_name).2 = ⟨[machine_name], [], []⟩ ∧
    (∀ whereSel, whereSel = "cpu" ∨ whereSel = "gpu" ∨ whereSel = "cgpu" →
      kill_main net user job_name whereSel = Except.error "AttributeError") := by
  refine ⟨?_, ?_, ?_⟩
  · unfold kill_machine
    rw [if_neg h1, if_pos h2]
  · unfold kill_machine
    rw [if_neg h1, if_pos h2]
  · intro whereSel hw
    rcases hw with rfl | rfl | rfl <;> rfl

/-- Witness for C7 at a concrete input: "m1" cannot be pinged; its error is
recorded, and the reaper `main` on the "cpu" pool aborts. -/
theorem C7_ping_failure_and_crash_witness :
    ("m1" ≠ (Net.mk "self" (fun _ => false) (fun _ _ _ => []) (fun _ _ => false)).localHostname) ∧
    ((Net.mk "self" (fun _ => false) (fun _ _ _ => []) (fun _ _ => false)).pingOk "m1" = false) ∧
    kill_main (Net.mk "self" (fun _ => false) (fun _ _ _ => []) (fun _ _ => false))
      "u" "j" "cpu" = Except.error "AttributeError" :=
  ⟨by decide, rfl,
    (C7_ping_failure_and_crash (Net.mk "self" (fun _ => false) (fun _ _ _ => []) (fun _ _ => false))
      "m1" "u" "j" (by decide) rfl).2.2 "cpu" (Or.inl rfl)⟩

/-- C8: the claimed name-sorted final report is never emitted.
`get_machine_names` returns a non-empty machine list for every selector it
accepts, and `main` raises `AttributeError` (kill_clients.py line 109,
`args.user` on the list that line 107 rebound `args` to) before the worker
pool, the fan-out over `kill_machine`, and the sorted report of line 122; an
unaccepted selector aborts with `NotImplementedError` instead.  Every
invocation of the reaper therefore errors. -/
theorem C8_report_never_reached (net : Net) (user job_name : String) :
    (∀ whereSel names, get_machine_names whereSel = Except.ok names → names ≠ []) ∧
    (∀ whereSel, whereSel = "cpu" ∨ whereSel = "gpu" ∨ whereSel = "cgpu" →
      kill_main net user job_name whereSel = Except.error "AttributeError") ∧
    (∀ whereSel, ¬ (whereSel = "cpu" ∨ whereSel = "gpu" ∨ whereSel = "cgpu") →
      kill_main net user job_name whereSel = Except.error "NotImplementedError") := by
  refine ⟨fun whereSel names h => get_machine_names_ne_nil whereSel names h, ?_, ?_⟩
  · intro whereSel hw
    rcases hw with rfl | rfl | rfl <;> rfl
  · intro whereSel hw
    push_neg at hw
    have hgm : get_machine_names whereSel = Except.error "NotImplementedError" := by
      unfold get_machine_names
      rw [if_neg hw.2.2, if_neg hw.1, if_neg hw.2.1]
    unfold kill_main
    rw [hgm]

/-- Witness for C8 at a concrete input: the reaper `main` on the "gpu" pool
aborts, as does an invocation with the unaccepted selector "all". -/
theorem C8_report_never_reached_witness :
    kill_main (Net.mk "self" (fun _ => true) (fun _ _ _ => []) (fun _ _ => true))
      "u" "j" "gpu" = Except.error "AttributeError" ∧
    kill_main (Net.mk "self" (fun _ => true) (fun _ _ _ => []) (fun _ _ => true))
      "u" "j" "all" = Except.error "NotImplementedError" :=
  ⟨(C8_report_never_reached (Net.mk "self" (fun _ => true) (fun _ _ _ => []) (fun _ _ => true))
      "u" "j").2.1 "gpu" (Or.inr (Or.inl rfl)),
    (C8_report_never_reached (Net.mk "self" (fun _ => true) (fun _ _ _ => []) (fun _ _ => true))
      "u" "j").2.2 "all" (by decide)⟩

end KillClients

namespace SpecModel

/-- Modelled from the spec: the expects-enabled execution client (the variant
reading positional `cmds_file` and `expects_file` and skipping satisfied jobs)
is not among the provided sources; only its input generator
`example_gen_params_expects.py` is.  Per the spec, "for each command at line i,
check every path in expectation line i; if any is missing, the command is
scheduled; if all exist, it is skipped".  `ex` is the file-existence check;
`b` is the line index of the first remaining command; an expectation line is
its already-split list of paths; the result pairs each scheduled command with
its line index. -/
def clientScheduleFrom (ex : String → Bool) :
    Nat → List String → List (List String) → List (Nat × String)
  | _, [], _ => []
  | _, _ :: _, [] => []
  | i, c :: cs, e :: es =>
    (if e.all ex then [] else [(i, c)]) ++ clientScheduleFrom ex (i + 1) cs es

/-- Modelled from the spec: the full filtering pass of the expects-enabled
execution client over its commands file and expectations file, starting at
line 0. -/
def clientSchedule (ex : String → Bool) (cmds : List String)
    (expects : List (List String)) : List (Nat × String) :=
  clientScheduleFrom ex 0 cmds expects

lemma clientScheduleFrom_mem (ex : String → Bool) :
    ∀ (cs : List String) (es : List (List String)) (b j : Nat) (c : String),
      ((j, c) ∈ clientScheduleFrom ex b cs es ↔
        ∃ k, j = b + k ∧ k < cs.length ∧ k < es.length ∧ cs.getD k "" = c ∧
          (es.getD k []).all ex = false) := by
  intro cs
  induction cs with
  | nil =>
    intro es b j c
    simp [clientScheduleFrom]
  | cons c0 cs ih =>
    intro es b j c
    cases es with
    | nil => simp [clientScheduleFrom]
    | cons e0 es =>
      simp only [clientScheduleFrom, List.mem_append]
      rw [ih es (b + 1) j c]
      constructor
      · intro h
        rcases h with h | ⟨k, hk, hk1, hk2, hk3, hk4⟩
        · by_cases hall : e0.all ex
          · rw [if_pos hall] at h
            simp at h
          · rw [if_neg hall] at h
            simp only [List.mem_singleton, Prod.mk.injEq] at h
            refine ⟨0, by omega, by simp, by simp, ?_, ?_⟩
            · simp [h.2]
            · simp [Bool.eq_false_iff, hall]
        · exact ⟨k + 1, by omega, by simp; omega, by simp; omega,
            by simpa using hk3, by simpa using hk4⟩
      · rintro ⟨k, hk, hk1, hk2, hk3, hk4⟩
        cases k with
        | zero =>
          left
          simp only [List.getD_cons_zero] at hk3 hk4
          rw [if_neg (by simp [hk4])]
          simp [hk, hk3]
        | succ k =>
          right
          exact ⟨k, by omega, by simpa [Nat.succ_lt_succ_iff] using hk1,
            by simpa [Nat.succ_lt_succ_iff] using hk2,
            by simpa using hk3, by simpa using hk4⟩

/-- C2 (spec-modelled): the command at line `i` of the commands file is
scheduled by the expects-enabled client exactly when not every path on line `i`
of the expectations file exists — so it is skipped when all exist, and
scheduled as soon as one is missing, regardless of the other paths' state. -/
theorem C2_skip_filter (ex : String → Bool) (cmds : List String)
    (expects : List (List String)) (i : Nat)
    (h1 : i < cmds.length) (h2 : i < expects.length) :
    ((i, cmds.getD i "") ∈ clientSchedule ex cmds expects ↔
      (expects.getD i []).all ex = false) := by
  unfold clientSchedule
  rw [clientScheduleFrom_mem]
  constructor
  · rintro ⟨k, hk, _, _, _, hall⟩
    have : k = i := by omega
    subst this
    exact hall
  · intro hall
    exact ⟨i, by omega, h1, h2, rfl, hall⟩

/-- Witness for C2 at a concrete input: with only "a" existing, the command on
line 0 (expects "a") is skipped, the command on line 1 (expects "a" and "b") is
scheduled. -/
theorem C2_skip_filter_witness :
    (1 < 2) ∧
    ((1, ["c0", "c1"].getD 1 "") ∈
      clientSchedule (fun s => s == "a") ["c0", "c1"] [["a"], ["a", "b"]]) ∧
    ¬ ((0, ["c0", "c1"].getD 0 "") ∈
      clientSchedule (fun s => s == "a") ["c0", "c1"] [["a"], ["a", "b"]]) :=
  ⟨by decide,
    (C2_skip_filter (fun s => s == "a") ["c0", "c1"] [["a"], ["a", "b"]] 1
      (by decide) (by decide)).mpr (by decide),
    fun h =>
      by simpa using (C2_skip_filter (fun s => s == "a") ["c0", "c1"]
        [["a"], ["a", "b"]] 0 (by decide) (by decide)).mp h⟩

/-- Modelled from the spec: the expects-enabled splitter (the dispatcher
variant that takes a same-length expectation list along with the command list
and writes paired command/expectation slot files) is not among the provided
sources.  Per the spec it "fails if the command list and expectation list
differ in length (explicit length-match precondition)"; on equal lengths it
round-robins the paired jobs with the same partition as `Dispatch.split_jobs`. -/
def split_jobs_expects (cmds : List String) (expects : List (List String))
    (N : Nat) : Except String (List (List (String × List String))) :=
  if cmds.length = expects.length then
    Except.ok (Dispatch.split_jobs (cmds.zip expects) N)
  else
    Except.error "command list and expectation list differ in length"

/-- C3 (spec-modelled): given both a command list and an expectation list, the
splitter fails with an error — writing no slot files — exactly when the two
lists differ in length, and otherwise produces the round-robin split of the
paired lists. -/
theorem C3_length_mismatch (cmds : List String) (expects : List (List String))
    (N : Nat) :
    (cmds.length ≠ expects.length →
      split_jobs_expects cmds expects N =
        Except.error "command list and expectation list differ in length") ∧
    (cmds.length = expects.length →
      split_jobs_expects cmds expects N =
        Except.ok (Dispatch.split_jobs (cmds.zip expects) N)) := by
  unfold split_jobs_expects
  constructor
  · intro h
    rw [if_neg h]
  · intro h
    rw [if_pos h]

/-- Witness for C3 at a concrete input: one command and zero expectation lines
is a length mismatch and yields the error. -/
theorem C3_length_mismatch_witness :
    (["a"].length ≠ ([] : List (List String)).length) ∧
    split_jobs_expects ["a"] [] 3 =
      Except.error "command list and expectation list differ in length" :=
  ⟨by decide, (C3_length_mismatch ["a"] [] 3).1 (by decide)⟩

end SpecModel
